import Mathlib

/-!
Verification of the schema-reconciliation core of the LWS_CloudPipe_v2
pipeline.  The Python functions named in the claims are shallowly embedded
as executable Lean definitions over `String` / `List Char`; each definition
carries a comment pointing at the source file and lines it embeds.
-/

namespace CloudPipe

/-! ### Models of the Python string primitives used by the sanitizers -/

/-- Model of the whitespace set stripped by Python `str.strip()` (the ASCII
whitespace characters; all labels handled by the theorems below are ASCII). -/
def pyIsSpace (c : Char) : Bool :=
  c == ' ' || c == '\t' || c == '\n' || c == '\r' ||
  c == Char.ofNat 11 || c == Char.ofNat 12

/-- Strip characters satisfying `p` from the back of a character list,
then from the front: model of Python `str.strip(...)` at list level
(the two ends are independent, so the order does not matter). -/
def stripBoth (p : Char → Bool) (l : List Char) : List Char :=
  ((l.reverse.dropWhile p).reverse).dropWhile p

/-- Model of Python `str.strip()` (whitespace strip). -/
def pyStrip (s : String) : String :=
  String.mk (stripBoth pyIsSpace s.toList)

/-- The quote characters stripped by `.strip('"\'')` in the sanitizers. -/
def quoteChars : List Char := ['"', '\'']

/-- Model of Python `str.strip('"\'')`. -/
def pyStripQuotes (s : String) : String :=
  String.mk (stripBoth (fun c => quoteChars.contains c) s.toList)

/-- Model of Python `str.upper()` on ASCII strings (character-wise
upper-casing; kernel-reducible, unlike `String.toUpper`). -/
def pyToUpper (s : String) : String :=
  String.mk (s.toList.map Char.toUpper)

/-- Model of Python `str.lower()` on ASCII strings (character-wise). -/
def pyToLower (s : String) : String :=
  String.mk (s.toList.map Char.toLower)

/-- Collapse every maximal run of consecutive underscores into a single
underscore: model of `re.sub(r'_+', '_', s)` at list level. -/
def collapseU : List Char → List Char
  | [] => []
  | [c] => [c]
  | c₁ :: c₂ :: cs =>
    if c₁ == '_' && c₂ == '_' then collapseU (c₂ :: cs)
    else c₁ :: collapseU (c₂ :: cs)

/-- Strip leading and trailing underscores: model of `str.strip('_')`. -/
def stripU (l : List Char) : List Char :=
  stripBoth (fun c => c == '_') l

/-- ASCII word character, the class `[a-zA-Z0-9_]`. -/
def isWordAscii (c : Char) : Bool :=
  c.isAlpha || c.isDigit || c == '_'

/-! ### The three column-name sanitizer variants present in the source -/

/-- The reserved-word list of
`src/pipeline_scripts/load_from_azure.py` line 82. -/
def reservedWords : List String :=
  ["SELECT", "FROM", "WHERE", "INSERT", "UPDATE", "DELETE",
   "CREATE", "DROP", "TABLE", "COLUMN"]

/-- Embedding of `clean_column_name` of
`src/pipeline_scripts/load_from_azure.py` lines 53-79 (everything before the
reserved-word check): strip whitespace then surrounding quotes, replace the
characters `/ ( ) ? -` by underscores, collapse underscore runs, strip
leading/trailing underscores, fall back to `UNNAMED_COLUMN` when empty.
Note this variant replaces neither spaces nor general punctuation. -/
def cleanLFAcore (label : String) : String :=
  let s0 := (pyStripQuotes (pyStrip label)).toList
  let s1 := s0.map (fun c =>
    if c == '/' || c == '(' || c == ')' || c == '?' || c == '-' then '_' else c)
  let s3 := stripU (collapseU s1)
  if s3.isEmpty then "UNNAMED_COLUMN" else String.mk s3

/-- Embedding of `clean_column_name` of
`src/pipeline_scripts/load_from_azure.py` lines 53-87: `cleanLFAcore`
followed by the reserved-word prefixing of lines 81-84. -/
def cleanColumnNameLFA (label : String) : String :=
  let cleaned := cleanLFAcore label
  if reservedWords.contains (pyToUpper cleaned) then "COL_" ++ cleaned else cleaned

/-- First steps of the regex-based `clean_column_name` shared by
`src/pipeline_scripts/recreate_tables_final.py` lines 27-52 and
`src/helper_scripts/pipeline_utils/create_column_type_mapping.py`
lines 23-48: strip whitespace, then `re.sub(r'[^a-zA-Z0-9_]', '_', ...)`
(lines 33-36 of `recreate_tables_final.py`). -/
def rtStage1 (l : List Char) : List Char :=
  (stripBoth pyIsSpace l).map (fun c => if isWordAscii c then c else '_')

/-- Result of the collapse-and-strip steps of the regex-based sanitizer
(`recreate_tables_final.py` lines 39-42). -/
def rtStage3 (l : List Char) : List Char :=
  stripU (collapseU (rtStage1 l))

/-- List-level body of the regex-based `clean_column_name`: after the
collapse-and-strip steps, prefix `COL_` when the first character is
neither a letter nor an underscore, or fall back to `UNNAMED_COLUMN`
when empty (`recreate_tables_final.py` lines 44-50). -/
def cleanRTlist (l : List Char) : List Char :=
  match rtStage3 l with
  | [] => "UNNAMED_COLUMN".toList
  | c :: cs =>
    if !c.isAlpha && !(c == '_') then 'C' :: 'O' :: 'L' :: '_' :: c :: cs
    else c :: cs

/-- Embedding of the regex-based `clean_column_name`
(`recreate_tables_final.py` lines 27-52, identical code in
`create_column_type_mapping.py` lines 23-48). -/
def cleanColumnNameRT (label : String) : String :=
  String.mk (cleanRTlist label.toList)

/-- The explicit punctuation class replaced by `schema_analyzer.py`
line 109. -/
def saPunct : List Char :=
  ['/', '(', ')', '?', '-', '.', ',', ':', ';', '!', '@', '#', '$', '%',
   '^', '&', '*', '+', '=', '[', ']', Char.ofNat 123, Char.ofNat 125,
   '|', '\\', Char.ofNat 96, '~', '<', '>', '"', '\'']

/-- ASCII fragment of the regex class `\w`.  `schema_analyzer.py` uses the
Unicode-aware `\w`; every label this development evaluates it on is ASCII,
where the two agree. -/
def isPyWord (c : Char) : Bool :=
  c.isAlpha || c.isDigit || c == '_'

/-- Embedding of `SchemaAnalyzer.clean_column_name` of
`src/claude_scripts/schema_analyzer.py` lines 105-120: strip whitespace and
quotes, replace spaces by underscores, replace the explicit punctuation
class by underscores, replace remaining non-word non-space characters by
underscores, collapse underscore runs, strip underscores, fall back to
`UNNAMED_COLUMN`, prefix `COL_` when the first character is neither a
letter nor an underscore, and upper-case the result (its comparison key). -/
def cleanColumnNameSA (label : String) : String :=
  let s0 := (pyStripQuotes (pyStrip label)).toList
  let s1 := s0.map (fun c => if c == ' ' then '_' else c)
  let s2 := s1.map (fun c => if saPunct.contains c then '_' else c)
  let s3 := s2.map (fun c => if !(isPyWord c || pyIsSpace c || c == '_') then '_' else c)
  let s5 := stripU (collapseU s3)
  let cleaned :=
    match s5 with
    | [] => "UNNAMED_COLUMN".toList
    | c :: cs =>
      if !c.isAlpha && !(c == '_') then 'C' :: 'O' :: 'L' :: '_' :: c :: cs
      else c :: cs
  pyToUpper (String.mk cleaned)

/-- Decides the regular expression `^[A-Za-z_][A-Za-z0-9_]*$` of the spec:
non-empty, first character a letter or underscore, remaining characters
letters, digits or underscores. -/
def identOk (s : String) : Bool :=
  match s.toList with
  | [] => false
  | c :: cs => (c.isAlpha || c == '_') && cs.all isWordAscii

/-! ### Per-table column-list cleaning with duplicate suffixing -/

/-- Loop body of the column-cleaning loops of
`src/pipeline_scripts/load_from_azure.py` lines 355-361 and
`src/helper_scripts/pipeline_utils/create_column_type_mapping.py`
lines 352-358: clean each label and, when the cleaned name already occurs
among the names produced so far, append `_<positional index>` (indices from
`enumerate`, starting at 0).  `acc` holds the already-produced names in
reverse order. -/
def dedupColumnsAux (clean : String → String) : Nat → List String → List String → List String
  | _, acc, [] => acc.reverse
  | j, acc, col :: cols =>
    let cc := clean col
    let cc := if acc.contains cc then cc ++ "_" ++ toString j else cc
    dedupColumnsAux clean (j + 1) (cc :: acc) cols

/-- The cleaned per-table column list produced by
`create_column_type_mapping.py` lines 352-358 (regex-based sanitizer). -/
def cleanedColumnsCTM (cols : List String) : List String :=
  dedupColumnsAux cleanColumnNameRT 0 [] cols

/-- The cleaned per-table column list produced by
`load_from_azure.py` lines 355-361 (load sanitizer). -/
def cleanedColumnsLFA (cols : List String) : List String :=
  dedupColumnsAux cleanColumnNameLFA 0 [] cols

/-! ### Blob/file matcher variants -/

/-- Decides whether `needle` occurs as a contiguous sublist of `hay`:
model of the Python substring test `needle in hay`. -/
def occursIn (needle : List Char) : List Char → Bool
  | [] => needle.isEmpty
  | c :: cs => needle.isPrefixOf (c :: cs) || occursIn needle cs

/-- String-level substring containment, `substrOf needle hay` iff `needle`
is a contiguous substring of `hay`. -/
def substrOf (needle hay : String) : Bool :=
  occursIn needle.toList hay.toList

/-- The case-insensitive equality loop of both matchers (rule 3): return
the first available name whose lower-casing equals the lower-cased target,
with or without a `.csv` extension appended to the target. -/
def matchLoopCI (tl : String) : List String → Option String
  | [] => none
  | b :: bs =>
    if pyToLower b == tl || pyToLower b == tl ++ ".csv" then some b
    else matchLoopCI tl bs

/-- The substring-containment loop of `schema_analyzer.py` lines 190-192
(rule 4): first available name containing, or contained in, the target,
case-insensitively. -/
def matchLoopSub (tl : String) : List String → Option String
  | [] => none
  | b :: bs =>
    if substrOf tl (pyToLower b) || substrOf (pyToLower b) tl then some b
    else matchLoopSub tl bs

/-- Embedding of `SchemaAnalyzer.find_matching_blob` of
`src/claude_scripts/schema_analyzer.py` lines 172-194: exact match, exact
match with `.csv`, case-insensitive match (with and without `.csv`), then
substring containment either direction; `none` models the `None` return. -/
def findMatchingBlobSA (target : String) (avail : List String) : Option String :=
  if avail.contains target then some target
  else if avail.contains (target ++ ".csv") then some (target ++ ".csv")
  else
    match matchLoopCI (pyToLower target) avail with
    | some b => some b
    | none => matchLoopSub (pyToLower target) avail

/-- Embedding of `find_matching_blob` of
`src/pipeline_scripts/load_from_azure.py` lines 129-148 (identical code in
`recreate_tables_final.py` lines 88-107 and
`create_column_type_mapping.py` lines 84-103): the same rules 1-3, but no
substring-containment rule. -/
def findMatchingBlobLFA (target : String) (avail : List String) : Option String :=
  if avail.contains target then some target
  else if avail.contains (target ++ ".csv") then some (target ++ ".csv")
  else matchLoopCI (pyToLower target) avail

/-- Modelled from the spec (section 4.2): the four-rule matcher stated in
the claim, each rule returning the first available name (in input order)
satisfying it, `none` when no rule matches.  Kept separate from the source
embeddings so the two can be compared. -/
def findMatchSpec (target : String) (avail : List String) : Option String :=
  match avail.find? (fun b => b == target) with
  | some b => some b
  | none =>
    match avail.find? (fun b => b == target ++ ".csv") with
    | some b => some b
    | none =>
      match avail.find? (fun b =>
          pyToLower b == pyToLower target ||
          pyToLower b == pyToLower target ++ ".csv") with
      | some b => some b
      | none =>
        avail.find? (fun b =>
          substrOf (pyToLower target) (pyToLower b) ||
          substrOf (pyToLower b) (pyToLower target))

/-! ### Schema differ -/

/-- Result record of `SchemaAnalyzer.compare_schemas`
(`schema_analyzer.py` lines 196-233), restricted to its set-algebra
fields.  The advisory `potential_matches` dictionary of lines 209-220 is
intentionally not modelled: it iterates Python sets in unspecified order
and none of the claims concern it. -/
structure SchemaComparison where
  csvColumnCount : Nat
  snowflakeColumnCount : Nat
  exactMatches : Finset String
  csvOnly : Finset String
  snowflakeOnly : Finset String
  deriving DecidableEq

/-- Embedding of the set algebra of `SchemaAnalyzer.compare_schemas`
(`schema_analyzer.py` lines 199-206): both column lists are converted to
sets; `exact_matches` is the intersection, `csv_only` and
`snowflake_only` the two differences. -/
def compareSchemas (csvHeaders snowflakeColumns : List String) : SchemaComparison :=
  let csvSet := csvHeaders.toFinset
  let sfSet := snowflakeColumns.toFinset
  { csvColumnCount := csvHeaders.length
    snowflakeColumnCount := snowflakeColumns.length
    exactMatches := csvSet ∩ sfSet
    csvOnly := csvSet \ sfSet
    snowflakeOnly := sfSet \ csvSet }

/-! ### Value-parsing models for the type inferencer

`analyze_column_type` delegates value parsing to pandas
(`pd.to_datetime`, `pd.to_numeric`).  These vendor calls are modelled by
executable predicates: numeric parsing follows the Python numeric-literal
grammar, date parsing accepts the ISO shapes the pipeline's data uses.
Every theorem below that depends on a parsing outcome only evaluates these
models on inputs where they visibly agree with pandas. -/

/-- Non-empty all-digit character list. -/
def digitsNonempty (l : List Char) : Bool :=
  !l.isEmpty && l.all Char.isDigit

/-- Optional sign followed by a non-empty digit run. -/
def intCore : List Char → Bool
  | '+' :: rest => digitsNonempty rest
  | '-' :: rest => digitsNonempty rest
  | l => digitsNonempty l

/-- Model of "this string parses as a Python integer" (`pd.to_numeric`
producing an integer dtype for this value). -/
def isPyInt (s : String) : Bool :=
  intCore (stripBoth pyIsSpace s.toList)

/-- Mantissa of a float literal: `digits`, `digits.`, `digits.digits`
or `.digits`. -/
def mantissaOk (l : List Char) : Bool :=
  match l.span Char.isDigit with
  | (d, []) => !d.isEmpty
  | (d, '.' :: frac) => (!d.isEmpty || !frac.isEmpty) && frac.all Char.isDigit
  | _ => false

/-- Unsigned-or-signed float literal body, optionally with an exponent. -/
def floatCore (l : List Char) : Bool :=
  let l₁ := match l with
    | '+' :: r => r
    | '-' :: r => r
    | r => r
  match l₁.span (fun c => !(c == 'e' || c == 'E')) with
  | (m, []) => mantissaOk m
  | (m, _ :: ex) => mantissaOk m && intCore ex

/-- Model of "this string parses as a number" (a `pd.to_numeric` success
for one value). -/
def isPyFloat (s : String) : Bool :=
  floatCore (stripBoth pyIsSpace s.toList)

/-- Model of `pd.to_numeric(values, errors='raise')` succeeding: every
value parses as a number. -/
def pdToNumericOk (vals : List String) : Bool :=
  vals.all isPyFloat

/-- Numeric value of a digit run. -/
def digitsToNat (l : List Char) : Nat :=
  l.foldl (fun n c => n * 10 + (c.toNat - 48)) 0

/-- Integer value of a string accepted by `isPyInt`. -/
def parsePyInt (s : String) : Int :=
  match stripBoth pyIsSpace s.toList with
  | '-' :: rest => - (digitsToNat rest : Int)
  | '+' :: rest => (digitsToNat rest : Int)
  | l => (digitsToNat l : Int)

/-- The precision ladder of `analyze_column_type`
(`create_column_type_mapping.py` lines 174-188), applied to
`abs(numeric_data.max())`. -/
def precisionFor (m : Nat) : Nat :=
  if m < 10 then 1
  else if m < 100 then 2
  else if m < 1000 then 4
  else if m < 10000 then 5
  else if m < 100000 then 6
  else if m < 1000000 then 7
  else 10

/-- Model of `abs(numeric_data.max())` over parsed integer values. -/
def absOfMax (vals : List String) : Nat :=
  (((vals.map parsePyInt).max?).getD 0).natAbs

/-- Shape `YYYY-MM-DD` (the ISO date shape of the pipeline's data);
stands in for a `pd.to_datetime` success on one value. -/
def isIsoDate (s : String) : Bool :=
  match s.toList with
  | [y1, y2, y3, y4, h1, m1, m2, h2, d1, d2] =>
    [y1, y2, y3, y4, m1, m2, d1, d2].all Char.isDigit && h1 == '-' && h2 == '-'
  | _ => false

/-- Shape `YYYY-MM-DD HH:MM:SS` (the format string of
`create_column_type_mapping.py` line 157). -/
def isIsoDateTime (s : String) : Bool :=
  match s.toList.span (fun c => !(c == ' ')) with
  | (d, ' ' :: t) =>
    isIsoDate (String.mk d) &&
    (match t with
     | [a1, a2, c1, b1, b2, c2, e1, e2] =>
       [a1, a2, b1, b2, e1, e2].all Char.isDigit && c1 == ':' && c2 == ':'
     | _ => false)
  | _ => false

/-- Model of `pd.to_datetime(values, errors='raise')` succeeding. -/
def pdToDatetimeOk (vals : List String) : Bool :=
  vals.all (fun v => isIsoDate v || isIsoDateTime v)

/-- Model of `pd.to_datetime(values, format='%Y-%m-%d %H:%M:%S',
errors='raise')` succeeding. -/
def pdToDatetimeFmtOk (vals : List String) : Bool :=
  vals.all isIsoDateTime

/-- Character class `[a-zA-Z0-9._%+-]` of the email regular expression. -/
def emailLocalChar (c : Char) : Bool :=
  c.isAlpha || c.isDigit || c == '.' || c == '_' || c == '%' || c == '+' || c == '-'

/-- Character class `[a-zA-Z0-9.-]` of the email regular expression. -/
def emailDomainChar (c : Char) : Bool :=
  c.isAlpha || c.isDigit || c == '.' || c == '-'

/-- Decides the email regular expression
`^[a-zA-Z0-9._%+-]+@[a-zA-Z0-9.-]+\.[a-zA-Z]{2,}$` of
`create_column_type_mapping.py` line 212. -/
def isEmailLike (s : String) : Bool :=
  match s.toList.span (fun c => !(c == '@')) with
  | (lp, '@' :: domain) =>
    !lp.isEmpty && lp.all emailLocalChar && !(domain.contains '@') &&
    (match domain.reverse.span (fun c => !(c == '.')) with
     | (tldRev, '.' :: midRev) =>
       decide (2 ≤ tldRev.length) && tldRev.all Char.isAlpha &&
       !midRev.isEmpty && midRev.all emailDomainChar
     | _ => false)
  | _ => false

/-! ### The type inferencer -/

/-- Date keywords of `analyze_column_type` line 146. -/
def dateKeywords : List String :=
  ["date", "created", "modified", "updated", "timestamp", "time"]

/-- Numeric keywords of `analyze_column_type` line 163. -/
def numberKeywords : List String :=
  ["amount", "price", "cost", "budget", "total", "sum", "count",
   "number", "id", "quantity", "qty"]

/-- Boolean keywords of `analyze_column_type` line 198. -/
def boolKeywords : List String :=
  ["flag", "is_", "has_", "active", "enabled", "status", "boolean", "bool"]

/-- Boolean-token vocabulary of `analyze_column_type` line 204. -/
def boolVocab : List String :=
  ["true", "false", "1", "0", "yes", "no", "y", "n"]

/-- The identifier keywords guarding the value-pattern block of
`analyze_column_type` (`create_column_type_mapping.py` lines 209-240), in
guard order. -/
def patternKeywords : List String :=
  ["email", "mail", "phone", "tel", "url", "link", "website", "name",
   "description", "desc", "notes", "code", "id"]

/-- Distinct values in first-occurrence order: model of pandas
`Series.unique()`. -/
def uniqueFirstAux (seen : List String) : List String → List String
  | [] => []
  | v :: vs =>
    if seen.contains v then uniqueFirstAux seen vs
    else v :: uniqueFirstAux (v :: seen) vs

/-- Distinct values of a list, keeping first occurrences. -/
def uniqueFirst (l : List String) : List String :=
  uniqueFirstAux [] l

/-- Embedding of `analyze_column_type` of
`src/helper_scripts/pipeline_utils/create_column_type_mapping.py`
lines 123-262.  The sample is a list of `Option String` (pandas nulls are
`none`, `dropna` is `filterMap id`).  The random down-sampling of
lines 132-133 only fires above 1000 values; the embedding models the
deterministic branch, and every theorem about it carries the matching
length bound.  Each heuristic stage carries the running
`(snowflake_type, precision)` pair exactly as the Python locals do. -/
def analyzeColumnType (columnName : String) (sampleData : List (Option String)) : String :=
  let colLower := pyToLower columnName
  let nonNull := sampleData.filterMap id
  let t0 : String × Option Nat := ("VARCHAR", none)
  let t1 :=
    if dateKeywords.any (fun k => substrOf k colLower) && !nonNull.isEmpty then
      if pdToDatetimeOk nonNull then ("DATE", t0.2)
      else if pdToDatetimeFmtOk nonNull then ("TIMESTAMP", t0.2)
      else t0
    else t0
  let t2 :=
    if numberKeywords.any (fun k => substrOf k colLower) && !nonNull.isEmpty then
      if pdToNumericOk nonNull then
        if nonNull.all isPyInt then ("NUMBER", some (precisionFor (absOfMax nonNull)))
        else ("FLOAT", t1.2)
      else t1
    else t1
  let t3 :=
    if boolKeywords.any (fun k => substrOf k colLower) && !nonNull.isEmpty then
      let uniq := uniqueFirst (nonNull.map pyToLower)
      if decide (uniq.length ≤ 4) && uniq.all (fun v => boolVocab.contains v) then
        ("BOOLEAN", t2.2)
      else t2
    else t2
  let t4 :=
    if !nonNull.isEmpty then
      if substrOf "email" colLower || substrOf "mail" colLower then
        if (nonNull.take 10).all isEmailLike then ("VARCHAR(255)", t3.2) else t3
      else if substrOf "phone" colLower || substrOf "tel" colLower then ("VARCHAR(20)", t3.2)
      else if substrOf "url" colLower || substrOf "link" colLower || substrOf "website" colLower then
        ("VARCHAR(500)", t3.2)
      else if substrOf "name" colLower then ("VARCHAR(100)", t3.2)
      else if substrOf "description" colLower || substrOf "desc" colLower || substrOf "notes" colLower then
        ("VARCHAR(1000)", t3.2)
      else if substrOf "code" colLower || substrOf "id" colLower then
        if pdToNumericOk nonNull then ("NUMBER", some 10) else ("VARCHAR(50)", t3.2)
      else t3
    else t3
  if t4.1 == "NUMBER" && (t4.2.getD 0) != 0 then
    "NUMBER(" ++ toString (t4.2.getD 0) ++ ")"
  else if t4.1 == "VARCHAR" then
    if !nonNull.isEmpty then
      let maxLen := (nonNull.map String.length).foldl max 0
      if maxLen ≤ 50 then "VARCHAR(50)"
      else if maxLen ≤ 100 then "VARCHAR(100)"
      else if maxLen ≤ 255 then "VARCHAR(255)"
      else if maxLen ≤ 500 then "VARCHAR(500)"
      else "VARCHAR(1000)"
    else "VARCHAR(255)"
  else t4.1

/-! ### Load-run model (`load_from_azure.py` lines 255-469) -/

/-- Per-table status recorded by the run loop of `load_from_azure`
(`pending` never survives the loop body). -/
inductive Status where
  | success
  | warning
  | failed
  deriving DecidableEq, Repr

/-- Outcome of the pure comparison inside `verify_data_load`
(`load_from_azure.py` lines 231-253): the post-load count, the configured
expectation and their equality flag. -/
structure Verification where
  actualCount : Nat
  expectedCount : Nat
  matched : Bool
  deriving DecidableEq, Repr

/-- Embedding of the decision of `verify_data_load`
(`load_from_azure.py` line 244): `match` is count equality. -/
def verifyDataLoad (actual expected : Nat) : Verification :=
  { actualCount := actual, expectedCount := expected, matched := actual == expected }

/-- Abstract environment one table's loop iteration runs in: the outcomes
of the external calls of `load_from_azure.py` lines 327-410 (blob lookup,
CSV download, table-existence check, bulk load, post-load count). -/
structure TableEnv where
  blobFound : Bool
  csvOk : Bool
  tableExists : Bool
  loadOk : Bool
  expectedRows : Nat
  actualCount : Nat
  deriving DecidableEq, Repr

/-- Embedding of the control flow of one iteration of the `load_from_azure`
table loop (lines 324-423): each failed external step sets `failed` and
moves on; a successful load followed by a count mismatch sets `warning`
(line 417), a matching count sets `success` (line 414). -/
def processTable (e : TableEnv) : Status :=
  if !e.blobFound then Status.failed
  else if !e.csvOk then Status.failed
  else if !e.tableExists then Status.failed
  else if !e.loadOk then Status.failed
  else if (verifyDataLoad e.actualCount e.expectedRows).matched then Status.success
  else Status.warning

/-- Embedding of the whole table loop (`load_from_azure.py`
lines 306-425): every mapping entry is processed, each independently of
the statuses recorded for the others. -/
def loadFromAzureRun (tables : List TableEnv) : List Status :=
  tables.map processTable

/-! ### Truncate-then-load model (`load_from_azure.py` lines 175-229) -/

/-- The two state-mutating steps of `load_data_to_snowflake`, in source
order: `TRUNCATE TABLE` (line 211) and `write_pandas` (line 214). -/
inductive LoadOp where
  | truncate
  | writePandas
  deriving DecidableEq, Repr

/-- The operation sequence `load_data_to_snowflake` issues. -/
def loadOps : List LoadOp := [LoadOp.truncate, LoadOp.writePandas]

/-- Effect of one step on the table's rows.  `none` models the step
failing (an exception, or `write_pandas` returning `False`), which leaves
the rows as they were at that point. -/
def applyOp (payload : List String) (writeSucceeds : Bool) :
    LoadOp → List String → Option (List String)
  | LoadOp.truncate, _ => some []
  | LoadOp.writePandas, _ => if writeSucceeds then some payload else none

/-- Run the steps in order, stopping at the first failure; returns the
reported success flag and the final rows of the target table. -/
def runOps (payload : List String) (writeSucceeds : Bool) :
    List String → List LoadOp → Bool × List String
  | st, [] => (true, st)
  | st, op :: ops =>
    match applyOp payload writeSucceeds op st with
    | some st' => runOps payload writeSucceeds st' ops
    | none => (false, st)

/-- Embedding of `load_data_to_snowflake` (`load_from_azure.py`
lines 175-229) as a state transformer on the target table's rows: truncate
first, then attempt the bulk write. -/
def loadDataToSnowflake (pre payload : List String) (writeSucceeds : Bool) :
    Bool × List String :=
  runOps payload writeSucceeds pre loadOps

/-! ### Helper lemmas about the string primitives -/

/-- No two consecutive underscores: the invariant `re.sub(r'_+', '_', ...)`
establishes. -/
def noDbl (a b : Char) : Prop := ¬(a = '_' ∧ b = '_')

theorem dropWhile_head_false (p : Char → Bool) :
    ∀ (l : List Char) {c : Char} {cs : List Char},
      l.dropWhile p = c :: cs → p c = false
  | [], c, cs, h => by simp at h
  | a :: l, c, cs, h => by
    rw [List.dropWhile_cons] at h
    split at h
    · exact dropWhile_head_false p l h
    · cases h
      next hp => exact Bool.eq_false_iff.mpr hp

theorem dropWhile_head?_false {p : Char → Bool} {l : List Char} {c : Char}
    (h : (l.dropWhile p).head? = some c) : p c = false := by
  cases hd : l.dropWhile p with
  | nil => rw [hd] at h; simp at h
  | cons a t =>
    rw [hd] at h
    simp only [List.head?_cons, Option.some.injEq] at h
    exact h ▸ dropWhile_head_false p l hd

theorem dropWhile_eq_self_of_head? {p : Char → Bool} {l : List Char}
    (h : ∀ c, l.head? = some c → p c = false) : l.dropWhile p = l := by
  cases l with
  | nil => rfl
  | cons a t =>
    rw [List.dropWhile_cons, if_neg]
    simp [h a rfl]

theorem stripBoth_head?_false {p : Char → Bool} {l : List Char} {c : Char}
    (h : (stripBoth p l).head? = some c) : p c = false :=
  dropWhile_head?_false h

theorem stripBoth_getLast?_false {p : Char → Bool} {l : List Char} {c : Char}
    (h : (stripBoth p l).getLast? = some c) : p c = false := by
  unfold stripBoth at h
  set X := (l.reverse.dropWhile p).reverse with hX
  obtain ⟨w, hw⟩ := List.dropWhile_suffix (l := X) p
  have hx : X.getLast? = some c := by
    rw [← hw, List.getLast?_append, h]; rfl
  have h3 : (l.reverse.dropWhile p).head? = some c := by
    rw [← List.reverse_reverse (l.reverse.dropWhile p), ← hX, List.head?_reverse]
    exact hx
  exact dropWhile_head?_false h3

theorem stripBoth_eq_self_of_ends {p : Char → Bool} {l : List Char}
    (h1 : ∀ c, l.head? = some c → p c = false)
    (h2 : ∀ c, l.getLast? = some c → p c = false) : stripBoth p l = l := by
  unfold stripBoth
  have hr : l.reverse.dropWhile p = l.reverse := by
    apply dropWhile_eq_self_of_head?
    intro c hc
    rw [List.head?_reverse] at hc
    exact h2 c hc
  rw [hr, List.reverse_reverse]
  exact dropWhile_eq_self_of_head? h1

theorem stripBoth_eq_self_of_all {p : Char → Bool} {l : List Char}
    (h : ∀ c ∈ l, p c = false) : stripBoth p l = l := by
  apply stripBoth_eq_self_of_ends
  · intro c hc
    exact h c (by cases l with
      | nil => simp at hc
      | cons a t => simp at hc; simp [hc])
  · intro c hc
    exact h c (List.mem_of_mem_getLast? hc)

theorem mem_stripBoth {p : Char → Bool} {l : List Char} {c : Char}
    (h : c ∈ stripBoth p l) : c ∈ l := by
  unfold stripBoth at h
  have h1 := (List.dropWhile_sublist p).subset h
  rw [List.mem_reverse] at h1
  have h2 := (List.dropWhile_sublist p).subset h1
  rwa [List.mem_reverse] at h2

theorem chain'_dropWhile {R : Char → Char → Prop} {p : Char → Bool} :
    ∀ {l : List Char}, List.Chain' R l → List.Chain' R (l.dropWhile p)
  | [], _ => by simp
  | a :: l, h => by
    rw [List.dropWhile_cons]
    split
    · exact chain'_dropWhile h.tail
    · exact h

theorem chain'_stripBoth {R : Char → Char → Prop} {p : Char → Bool} {l : List Char}
    (hsym : ∀ a b, R a b → R b a) (h : List.Chain' R l) :
    List.Chain' R (stripBoth p l) := by
  unfold stripBoth
  have h1 : List.Chain' R l.reverse :=
    List.chain'_reverse.mpr (h.imp fun a b hab => hsym a b hab)
  have h2 : List.Chain' R (l.reverse.dropWhile p) := chain'_dropWhile h1
  have h3 : List.Chain' R (l.reverse.dropWhile p).reverse :=
    List.chain'_reverse.mpr (h2.imp fun a b hab => hsym a b hab)
  exact chain'_dropWhile h3

theorem collapseU_cons (c : Char) (cs : List Char) :
    ∃ t, collapseU (c :: cs) = c :: t := by
  induction cs generalizing c with
  | nil => exact ⟨[], rfl⟩
  | cons d ds ih =>
    simp only [collapseU]
    split
    · next hcd =>
      have hc : c = '_' ∧ d = '_' := by simpa using hcd
      obtain ⟨t, ht⟩ := ih d
      exact ⟨t, by rw [ht, hc.1, hc.2]⟩
    · exact ⟨collapseU (d :: ds), rfl⟩

theorem collapseU_sublist : ∀ l : List Char, List.Sublist (collapseU l) l
  | [] => by simp [collapseU]
  | [c] => by simp [collapseU]
  | c₁ :: c₂ :: cs => by
    simp only [collapseU]
    split
    · exact (collapseU_sublist (c₂ :: cs)).cons c₁
    · exact (collapseU_sublist (c₂ :: cs)).cons₂ c₁

theorem collapseU_chain : ∀ l : List Char, List.Chain' noDbl (collapseU l)
  | [] => by simp [collapseU]
  | [c] => by simp [collapseU]
  | c₁ :: c₂ :: cs => by
    simp only [collapseU]
    split
    · exact collapseU_chain (c₂ :: cs)
    · next hne =>
      obtain ⟨t, ht⟩ := collapseU_cons c₂ cs
      rw [ht]
      rw [List.chain'_cons]
      refine ⟨fun hcontra => hne (by simp [hcontra.1, hcontra.2]), ?_⟩
      rw [← ht]
      exact collapseU_chain (c₂ :: cs)

theorem collapseU_eq_self : ∀ {l : List Char}, List.Chain' noDbl l → collapseU l = l
  | [], _ => rfl
  | [_], _ => rfl
  | c₁ :: c₂ :: cs, h => by
    have h12 : noDbl c₁ c₂ := (List.chain'_cons.mp h).1
    have ht : List.Chain' noDbl (c₂ :: cs) := h.tail
    simp only [collapseU]
    rw [if_neg, collapseU_eq_self ht]
    simp only [Bool.and_eq_true, beq_iff_eq]
    exact fun hc => h12 ⟨hc.1, hc.2⟩

theorem space_char_cases {c : Char} (ht : pyIsSpace c = true) :
    c = ' ' ∨ c = '\t' ∨ c = '\n' ∨ c = '\r' ∨
      c = Char.ofNat 11 ∨ c = Char.ofNat 12 := by
  unfold pyIsSpace at ht
  simp only [Bool.or_eq_true, beq_iff_eq] at ht
  tauto

theorem word_not_space {c : Char} (h : isWordAscii c = true) : pyIsSpace c = false := by
  cases hsp : pyIsSpace c with
  | false => rfl
  | true =>
    exfalso
    rcases space_char_cases hsp with h1 | h1 | h1 | h1 | h1 | h1 <;> subst h1 <;>
      exact absurd h (by decide)

theorem alpha_ne_underscore {c : Char} (h : c.isAlpha = true) : (c == '_') = false := by
  cases hbe : (c == '_') with
  | false => rfl
  | true =>
    have hc : c = '_' := by simpa using hbe
    subst hc
    exact absurd h (by decide)

theorem mem_rtStage1_word {l : List Char} :
    ∀ c ∈ rtStage1 l, isWordAscii c = true := by
  intro c hc
  rcases List.mem_map.mp hc with ⟨a, _, rfl⟩
  by_cases h : isWordAscii a = true
  · rw [if_pos h]; exact h
  · rw [if_neg h]; decide

theorem rtStage3_words {l : List Char} :
    ∀ c ∈ rtStage3 l, isWordAscii c = true := by
  intro c hc
  exact mem_rtStage1_word c ((collapseU_sublist (rtStage1 l)).subset (mem_stripBoth hc))

theorem rtStage3_chain (l : List Char) : List.Chain' noDbl (rtStage3 l) :=
  chain'_stripBoth (fun _ _ hab h => hab ⟨h.2, h.1⟩) (collapseU_chain (rtStage1 l))

theorem rtStage3_head {l : List Char} {c : Char}
    (h : (rtStage3 l).head? = some c) : (c == '_') = false := by
  have h' : (stripBoth (fun d => d == '_') (collapseU (rtStage1 l))).head? = some c := h
  have h2 := stripBoth_head?_false h'
  exact h2

theorem rtStage3_last {l : List Char} {c : Char}
    (h : (rtStage3 l).getLast? = some c) : (c == '_') = false := by
  have h' : (stripBoth (fun d => d == '_') (collapseU (rtStage1 l))).getLast? = some c := h
  have h2 := stripBoth_getLast?_false h'
  exact h2

/-! ### Invariants of the regex-based sanitizer's output -/

instance : DecidableRel noDbl := fun a b =>
  inferInstanceAs (Decidable (¬(a = '_' ∧ b = '_')))

theorem cleanRTlist_nil_case {l : List Char} (h : rtStage3 l = []) :
    cleanRTlist l = "UNNAMED_COLUMN".toList := by
  unfold cleanRTlist
  rw [h]

theorem cleanRTlist_cons_case {l : List Char} {a : Char} {cs : List Char}
    (h : rtStage3 l = a :: cs) :
    cleanRTlist l =
      if !a.isAlpha && !(a == '_') then 'C' :: 'O' :: 'L' :: '_' :: a :: cs
      else a :: cs := by
  unfold cleanRTlist
  rw [h]

theorem cleanRTlist_words (l : List Char) :
    ∀ c ∈ cleanRTlist l, isWordAscii c = true := by
  intro c hc
  rcases h3 : rtStage3 l with _ | ⟨a, cs⟩
  · rw [cleanRTlist_nil_case h3] at hc
    exact (by decide : ∀ d ∈ "UNNAMED_COLUMN".toList, isWordAscii d = true) c hc
  · have ha : ∀ d ∈ a :: cs, isWordAscii d = true := by
      intro d hd
      exact rtStage3_words (l := l) d (h3 ▸ hd)
    rw [cleanRTlist_cons_case h3] at hc
    by_cases hcond : (!a.isAlpha && !(a == '_')) = true
    · rw [if_pos hcond] at hc
      simp only [List.mem_cons] at hc
      rcases hc with rfl | rfl | rfl | rfl | rfl | hmem
      · decide
      · decide
      · decide
      · decide
      · exact ha _ (List.mem_cons_self _ _)
      · exact ha _ (List.mem_cons_of_mem _ hmem)
    · rw [if_neg hcond] at hc
      exact ha c hc

theorem cleanRTlist_ne_nil (l : List Char) : cleanRTlist l ≠ [] := by
  rcases h3 : rtStage3 l with _ | ⟨a, cs⟩
  · rw [cleanRTlist_nil_case h3]
    decide
  · rw [cleanRTlist_cons_case h3]
    split <;> simp

theorem cleanRTlist_head_alpha {l : List Char} {c : Char}
    (h : (cleanRTlist l).head? = some c) : c.isAlpha = true := by
  rcases h3 : rtStage3 l with _ | ⟨a, cs⟩
  · rw [cleanRTlist_nil_case h3] at h
    have h' : ("UNNAMED_COLUMN".toList).head? = some 'U' := by decide
    rw [h'] at h
    injection h with h2
    subst h2
    decide
  · rw [cleanRTlist_cons_case h3] at h
    have haq : (a == '_') = false :=
      rtStage3_head (show (rtStage3 l).head? = some a by rw [h3]; rfl)
    by_cases hcond : (!a.isAlpha && !(a == '_')) = true
    · rw [if_pos hcond] at h
      simp only [List.head?_cons, Option.some.injEq] at h
      subst h
      decide
    · rw [if_neg hcond] at h
      simp only [List.head?_cons, Option.some.injEq] at h
      rcases Bool.eq_false_or_eq_true (a.isAlpha) with hta | hfa
      · rw [← h]
        exact hta
      · exfalso
        apply hcond
        simp [hfa, haq]

/-- Executable check for the no-consecutive-underscores invariant. -/
def noDblOkB : List Char → Bool
  | [] => true
  | [_] => true
  | a :: b :: l => !(a == '_' && b == '_') && noDblOkB (b :: l)

theorem chain'_of_noDblOkB : ∀ {l : List Char}, noDblOkB l = true → List.Chain' noDbl l
  | [], _ => by simp
  | [_], _ => by simp
  | a :: b :: l, h => by
    rw [List.chain'_cons]
    simp only [noDblOkB, Bool.and_eq_true] at h
    refine ⟨?_, chain'_of_noDblOkB h.2⟩
    intro hp
    have hb := h.1
    rw [hp.1, hp.2] at hb
    simp at hb

theorem cleanRTlist_chain (l : List Char) : List.Chain' noDbl (cleanRTlist l) := by
  rcases h3 : rtStage3 l with _ | ⟨a, cs⟩
  · rw [cleanRTlist_nil_case h3]
    exact chain'_of_noDblOkB (by decide)
  · rw [cleanRTlist_cons_case h3]
    have haq : (a == '_') = false :=
      rtStage3_head (show (rtStage3 l).head? = some a by rw [h3]; rfl)
    have hch : List.Chain' noDbl (a :: cs) := by
      have hc := rtStage3_chain l
      rwa [h3] at hc
    by_cases hcond : (!a.isAlpha && !(a == '_')) = true
    · rw [if_pos hcond]
      simp only [List.chain'_cons]
      refine ⟨by decide, by decide, by decide, ?_, ?_⟩
      · exact fun hp => absurd haq (by simp [hp.2])
      · exact hch
    · rw [if_neg hcond]
      exact hch

theorem cleanRTlist_last {l : List Char} {c : Char}
    (h : (cleanRTlist l).getLast? = some c) : (c == '_') = false := by
  rcases h3 : rtStage3 l with _ | ⟨a, cs⟩
  · rw [cleanRTlist_nil_case h3] at h
    have hval : ("UNNAMED_COLUMN".toList).getLast? = some 'N' := by decide
    rw [hval] at h
    injection h with h2
    subst h2
    decide
  · rw [cleanRTlist_cons_case h3] at h
    have hlast : (a :: cs).getLast? = some c → (c == '_') = false := by
      intro hac
      refine rtStage3_last (l := l) ?_
      rw [h3]
      exact hac
    by_cases hcond : (!a.isAlpha && !(a == '_')) = true
    · rw [if_pos hcond] at h
      simp only [List.getLast?_cons_cons] at h
      exact hlast h
    · rw [if_neg hcond] at h
      exact hlast h

theorem cleanRTlist_fixed {out : List Char}
    (hw : ∀ c ∈ out, isWordAscii c = true)
    (hch : List.Chain' noDbl out)
    (hne : out ≠ [])
    (hh : ∀ c, out.head? = some c → c.isAlpha = true)
    (hl : ∀ c, out.getLast? = some c → (c == '_') = false) :
    cleanRTlist out = out := by
  have h1 : stripBoth pyIsSpace out = out :=
    stripBoth_eq_self_of_all (fun c hc => word_not_space (hw c hc))
  have h2 : rtStage1 out = out := by
    unfold rtStage1
    rw [h1]
    have hfix : ∀ c ∈ out, (if isWordAscii c then c else '_') = c :=
      fun c hc => if_pos (hw c hc)
    rw [List.map_congr_left hfix]
    exact List.map_id' out
  have h3 : rtStage3 out = out := by
    unfold rtStage3
    rw [h2, collapseU_eq_self hch]
    have hs : stripBoth (fun d => d == '_') out = out := by
      apply stripBoth_eq_self_of_ends
      · intro c hc
        exact alpha_ne_underscore (hh c hc)
      · intro c hc
        exact hl c hc
    exact hs
  cases out with
  | nil => exact absurd rfl hne
  | cons a cs =>
    have ha : a.isAlpha = true := hh a rfl
    rw [cleanRTlist_cons_case h3, if_neg]
    simp [ha]

theorem cleanRTlist_idem (l : List Char) :
    cleanRTlist (cleanRTlist l) = cleanRTlist l :=
  cleanRTlist_fixed (cleanRTlist_words l) (cleanRTlist_chain l)
    (cleanRTlist_ne_nil l) (fun _ h => cleanRTlist_head_alpha h)
    (fun _ h => cleanRTlist_last h)

/-! ### Helper lemmas for the blob matcher -/

theorem isPrefixOf_append_self (l t : List Char) : l.isPrefixOf (l ++ t) = true := by
  induction l with
  | nil => simp [List.isPrefixOf]
  | cons a l ih => simp [List.isPrefixOf, ih]

theorem find?_beq_eq (n : String) (avail : List String) :
    avail.find? (fun b => b == n) = if avail.contains n then some n else none := by
  induction avail with
  | nil => rfl
  | cons a l ih =>
    by_cases h : a = n
    · subst h
      simp
    · have h1 : (a == n) = false := by simpa using h
      have h2 : (n == a) = false := by simpa using (Ne.symm h)
      have h3 : ¬(n = a) := fun hna => h hna.symm
      simp [h1, h2, ih, h3]

theorem matchLoopCI_eq (tl : String) (avail : List String) :
    matchLoopCI tl avail =
      avail.find? (fun b => pyToLower b == tl || pyToLower b == tl ++ ".csv") := by
  induction avail with
  | nil => rfl
  | cons a l ih =>
    unfold matchLoopCI
    by_cases h : (pyToLower a == tl || pyToLower a == tl ++ ".csv") = true
    · simp [h]
    · simp only [Bool.not_eq_true] at h
      simp [h, ih]

theorem matchLoopSub_eq (tl : String) (avail : List String) :
    matchLoopSub tl avail =
      avail.find? (fun b => substrOf tl (pyToLower b) || substrOf (pyToLower b) tl) := by
  induction avail with
  | nil => rfl
  | cons a l ih =>
    unfold matchLoopSub
    by_cases h : (substrOf tl (pyToLower a) || substrOf (pyToLower a) tl) = true
    · simp [h]
    · simp only [Bool.not_eq_true] at h
      simp [h, ih]

theorem findMatchingBlobSA_eq_spec (target : String) (avail : List String) :
    findMatchingBlobSA target avail = findMatchSpec target avail := by
  unfold findMatchingBlobSA findMatchSpec
  rw [find?_beq_eq, find?_beq_eq, ← matchLoopCI_eq, ← matchLoopSub_eq]
  by_cases h1 : avail.contains target = true
  · rw [if_pos h1, if_pos h1]
  · rw [if_neg h1, if_neg h1]
    by_cases h2 : avail.contains (target ++ ".csv") = true
    · rw [if_pos h2, if_pos h2]
    · rw [if_neg h2, if_neg h2]

/-! ### Claim theorems -/

/-- C1 (counterexample).  The claim that every label's sanitized name
matches `^[A-Za-z_][A-Za-z0-9_]*$` fails for the `load_from_azure.py`
sanitizer, which deliberately preserves spacing: the label `"a b"` is
returned unchanged, with its space. -/
theorem sanitizer_regex_safety_LFA_fails :
    cleanColumnNameLFA "a b" = "a b" ∧
    identOk (cleanColumnNameLFA "a b") = false := by
  decide

/-- C1 (amended).  For the regex-based sanitizer shared by
`recreate_tables_final.py` and `create_column_type_mapping.py`, every
label's sanitized name matches `^[A-Za-z_][A-Za-z0-9_]*$` and is
non-empty. -/
theorem sanitizer_regex_safety_RT (label : String) :
    identOk (cleanColumnNameRT label) = true := by
  rcases hout : cleanRTlist label.toList with _ | ⟨a, cs⟩
  · exact absurd hout (cleanRTlist_ne_nil _)
  · have hres : cleanColumnNameRT label = String.mk (a :: cs) := by
      unfold cleanColumnNameRT
      rw [hout]
    rw [hres]
    have ha : a.isAlpha = true :=
      cleanRTlist_head_alpha (l := label.toList) (by rw [hout]; rfl)
    have hcs : cs.all isWordAscii = true := by
      rw [List.all_eq_true]
      intro c hc
      exact cleanRTlist_words label.toList c
        (by rw [hout]; exact List.mem_cons_of_mem a hc)
    show ((a.isAlpha || a == '_') && cs.all isWordAscii) = true
    simp [ha, hcs]

/-- C2 (code evaluated at the failing input).  The duplicate-resolution
loop of `load_from_azure.py` lines 355-361 and
`create_column_type_mapping.py` lines 352-358 appends `_<index>` when a
cleaned name repeats, but the suffixed name can itself collide with an
earlier cleaned name: the three distinct labels `a-2`, `a?`, `a-` produce
the list `[a_2, a, a_2]`, which is not duplicate-free. -/
theorem dedup_columns_duplicate :
    cleanedColumnsCTM ["a-2", "a?", "a-"] = ["a_2", "a", "a_2"] ∧
    cleanedColumnsLFA ["a-2", "a?", "a-"] = ["a_2", "a", "a_2"] ∧
    ¬ (cleanedColumnsCTM ["a-2", "a?", "a-"]).Nodup := by
  refine ⟨by decide, by decide, ?_⟩
  intro h
  rw [show cleanedColumnsCTM ["a-2", "a?", "a-"] = ["a_2", "a", "a_2"] by decide] at h
  exact (List.nodup_cons.mp h).1 (by decide)

/-- C3 (counterexample).  The `load_from_azure.py` sanitizer is not
idempotent: `"- a"` sanitizes to `" a"` (the hyphen becomes a stripped
underscore, exposing a space), and a second application strips that
space, giving `"a"`. -/
theorem sanitizer_idem_LFA_fails :
    cleanColumnNameLFA "- a" = " a" ∧
    cleanColumnNameLFA (cleanColumnNameLFA "- a") = "a" ∧
    cleanColumnNameLFA (cleanColumnNameLFA "- a") ≠ cleanColumnNameLFA "- a" := by
  decide

/-- C3 (amended).  The regex-based sanitizer of
`recreate_tables_final.py` / `create_column_type_mapping.py` is
idempotent on every label. -/
theorem sanitizer_idem_RT (label : String) :
    cleanColumnNameRT (cleanColumnNameRT label) = cleanColumnNameRT label := by
  unfold cleanColumnNameRT
  have h : (String.mk (cleanRTlist label.toList)).toList = cleanRTlist label.toList := rfl
  rw [h, cleanRTlist_idem]

/-- C4 (counterexample).  The regex-based sanitizer of
`recreate_tables_final.py` has no reserved-word check: it returns the
SQL reserved word `SELECT` unchanged, without the `COL_` prefix. -/
theorem reserved_prefix_RT_fails :
    cleanColumnNameRT "SELECT" = "SELECT" ∧
    ("COL_".toList.isPrefixOf (cleanColumnNameRT "SELECT").toList) = false := by
  decide

/-- C4 (amended).  The `load_from_azure.py` sanitizer does prefix
`COL_`: whenever the cleaned label upper-cases to a member of its
reserved-word list, the final result starts with `COL_`. -/
theorem reserved_prefix_LFA (label : String)
    (h : reservedWords.contains (pyToUpper (cleanLFAcore label)) = true) :
    ("COL_".toList.isPrefixOf (cleanColumnNameLFA label).toList) = true := by
  show ("COL_".toList.isPrefixOf
    (if reservedWords.contains (pyToUpper (cleanLFAcore label)) then
        "COL_" ++ cleanLFAcore label
      else cleanLFAcore label).toList) = true
  rw [if_pos h]
  have happ : ("COL_" ++ cleanLFAcore label).toList =
      "COL_".toList ++ (cleanLFAcore label).toList := rfl
  rw [happ]
  exact isPrefixOf_append_self _ _

/-- C4 (witness).  The label `sElEcT` cleans to a reserved word
case-insensitively, and its sanitized form carries the `COL_` prefix. -/
theorem reserved_prefix_LFA_witness :
    reservedWords.contains (pyToUpper (cleanLFAcore "sElEcT")) = true ∧
    ("COL_".toList.isPrefixOf (cleanColumnNameLFA "sElEcT").toList) = true :=
  ⟨by decide, reserved_prefix_LFA "sElEcT" (by decide)⟩

/-- C5.  The comparison key of the schema differ
(`schema_analyzer.py`'s `clean_column_name`, which upper-cases its
output) identifies the labels `"Scoop ID"` and `"scoop_id"`: their
upper-cased sanitized forms are equal (both `SCOOP_ID`). -/
theorem comparison_key_case_insensitive :
    pyToUpper (cleanColumnNameSA "Scoop ID") = pyToUpper (cleanColumnNameSA "scoop_id") ∧
    cleanColumnNameSA "Scoop ID" = "SCOOP_ID" ∧
    cleanColumnNameSA "scoop_id" = "SCOOP_ID" := by
  decide

/-- C6 (counterexample).  The claim describes a four-rule matcher with a
substring-containment rule, but the `load_from_azure.py` matcher stops
after rule 3: for the logical name `ab` and available name `xabx.csv`
(matched only by substring containment) it returns `none`, while the
four-rule matcher of the spec (and of `schema_analyzer.py`) returns
`xabx.csv`. -/
theorem blob_matcher_LFA_no_substring :
    findMatchingBlobLFA "ab" ["xabx.csv"] = none ∧
    findMatchSpec "ab" ["xabx.csv"] = some "xabx.csv" ∧
    findMatchingBlobSA "ab" ["xabx.csv"] = some "xabx.csv" := by
  decide

/-- C6 (amended).  The `schema_analyzer.py` matcher agrees with the
spec's four ordered rules (first-hit-wins, ties by input order, `none`
on no match) on every input; both matchers resolve
`findMatch("projects", ["PROJECTS.csv", "other.csv"])` to
`PROJECTS.csv` and return NotFound on an empty list. -/
theorem blob_matcher_rules :
    (∀ (target : String) (avail : List String),
      findMatchingBlobSA target avail = findMatchSpec target avail) ∧
    findMatchingBlobSA "projects" ["PROJECTS.csv", "other.csv"] = some "PROJECTS.csv" ∧
    findMatchingBlobLFA "projects" ["PROJECTS.csv", "other.csv"] = some "PROJECTS.csv" ∧
    findMatchingBlobSA "xyz" [] = none ∧
    findMatchingBlobLFA "xyz" [] = none := by
  refine ⟨findMatchingBlobSA_eq_spec, by decide, by decide, by decide, by decide⟩

/-- C7.  `compare_schemas` is pure set algebra: `exact_matches` is the
intersection, `csv_only` and `snowflake_only` the two differences, the
three sets are pairwise disjoint, matching ∪ missing-in-target is the
incoming (CSV) set, matching ∪ extra-in-target is the target
(Snowflake) set; and on target `{A,B,C}` versus incoming `{B,C,D}` the
diff is `{B,C}` / `{D}` / `{A}`. -/
theorem schema_diff_set_algebra :
    (∀ (csv sf : List String),
      (compareSchemas csv sf).exactMatches = sf.toFinset ∩ csv.toFinset ∧
      (compareSchemas csv sf).csvOnly = csv.toFinset \ sf.toFinset ∧
      (compareSchemas csv sf).snowflakeOnly = sf.toFinset \ csv.toFinset ∧
      Disjoint (compareSchemas csv sf).exactMatches (compareSchemas csv sf).csvOnly ∧
      Disjoint (compareSchemas csv sf).exactMatches (compareSchemas csv sf).snowflakeOnly ∧
      Disjoint (compareSchemas csv sf).csvOnly (compareSchemas csv sf).snowflakeOnly ∧
      (compareSchemas csv sf).exactMatches ∪ (compareSchemas csv sf).csvOnly = csv.toFinset ∧
      (compareSchemas csv sf).exactMatches ∪ (compareSchemas csv sf).snowflakeOnly = sf.toFinset) ∧
    (compareSchemas ["B", "C", "D"] ["A", "B", "C"]).exactMatches = {"B", "C"} ∧
    (compareSchemas ["B", "C", "D"] ["A", "B", "C"]).csvOnly = {"D"} ∧
    (compareSchemas ["B", "C", "D"] ["A", "B", "C"]).snowflakeOnly = {"A"} := by
  refine ⟨?_, by decide, by decide, by decide⟩
  intro csv sf
  refine ⟨?_, rfl, rfl, ?_, ?_, ?_, ?_, ?_⟩
  · simp only [compareSchemas]
    exact Finset.inter_comm _ _
  · simp only [compareSchemas, Finset.disjoint_left, Finset.mem_inter, Finset.mem_sdiff]
    tauto
  · simp only [compareSchemas, Finset.disjoint_left, Finset.mem_inter, Finset.mem_sdiff]
    tauto
  · simp only [compareSchemas, Finset.disjoint_left, Finset.mem_sdiff]
    tauto
  · simp only [compareSchemas]
    rw [Finset.union_comm, Finset.sdiff_union_inter]
  · simp only [compareSchemas]
    rw [Finset.inter_comm, Finset.union_comm, Finset.sdiff_union_inter]

/-- C8 (counterexample).  The claim as stated fails because the later
value-pattern block of `analyze_column_type` overrides the boolean
decision: `phone_status` matches the boolean keyword `status`, its
samples `{true, false}` sit inside the boolean vocabulary with ≤ 4
distinct values, no date or numeric keyword matches — yet the `phone`
pattern branch rewrites the type to `VARCHAR(20)`, not BOOLEAN. -/
theorem infer_type_boolean_override :
    boolKeywords.any (fun k => substrOf k (pyToLower "phone_status")) = true ∧
    dateKeywords.any (fun k => substrOf k (pyToLower "phone_status")) = false ∧
    numberKeywords.any (fun k => substrOf k (pyToLower "phone_status")) = false ∧
    uniqueFirst (([some "true", some "false"].filterMap id).map pyToLower) = ["true", "false"] ∧
    analyzeColumnType "phone_status" [some "true", some "false"] = "VARCHAR(20)" := by
  decide

/-- C8 (amended).  When additionally no later pattern keyword (email,
mail, phone, tel, url, link, website, name, description, desc, notes,
code, id) occurs in the identifier and at least one non-null sample
exists, the inferencer does return BOOLEAN: a boolean keyword matches,
the distinct lower-cased non-null samples number at most 4 and sit
inside the boolean vocabulary.  The length bound keeps the sample
below the random down-sampling threshold the embedding does not model. -/
theorem infer_type_boolean (ident : String) (sample : List (Option String))
    (hlen : sample.length ≤ 1000)
    (hbool : boolKeywords.any (fun k => substrOf k (pyToLower ident)) = true)
    (hdate : ∀ k ∈ dateKeywords, substrOf k (pyToLower ident) = false)
    (hnum : ∀ k ∈ numberKeywords, substrOf k (pyToLower ident) = false)
    (hpat : ∀ k ∈ patternKeywords, substrOf k (pyToLower ident) = false)
    (hne : sample.filterMap id ≠ [])
    (hdist : (uniqueFirst ((sample.filterMap id).map pyToLower)).length ≤ 4)
    (hvocab : ∀ v ∈ uniqueFirst ((sample.filterMap id).map pyToLower),
      boolVocab.contains v = true) :
    analyzeColumnType ident sample = "BOOLEAN" := by
  have hda : dateKeywords.any (fun k => substrOf k (pyToLower ident)) = false := by
    rw [List.any_eq_false]
    intro k hk
    simp [hdate k hk]
  have hna : numberKeywords.any (fun k => substrOf k (pyToLower ident)) = false := by
    rw [List.any_eq_false]
    intro k hk
    simp [hnum k hk]
  have hne' : (sample.filterMap id).isEmpty = false := by
    cases h : (sample.filterMap id) with
    | nil => exact absurd h hne
    | cons a t => rfl
  have hd4 : decide ((uniqueFirst ((sample.filterMap id).map pyToLower)).length ≤ 4) = true :=
    decide_eq_true hdist
  have hall : (uniqueFirst ((sample.filterMap id).map pyToLower)).all
      (fun v => boolVocab.contains v) = true := List.all_eq_true.mpr hvocab
  have hp1 := hpat "email" (by decide)
  have hp2 := hpat "mail" (by decide)
  have hp3 := hpat "phone" (by decide)
  have hp4 := hpat "tel" (by decide)
  have hp5 := hpat "url" (by decide)
  have hp6 := hpat "link" (by decide)
  have hp7 := hpat "website" (by decide)
  have hp8 := hpat "name" (by decide)
  have hp9 := hpat "description" (by decide)
  have hp10 := hpat "desc" (by decide)
  have hp11 := hpat "notes" (by decide)
  have hp12 := hpat "code" (by decide)
  have hp13 := hpat "id" (by decide)
  have hb1 : (("BOOLEAN" : String) == "NUMBER") = false := by decide
  have hb2 : (("BOOLEAN" : String) == "VARCHAR") = false := by decide
  have hvm : ∀ x ∈ uniqueFirst ((sample.filterMap id).map pyToLower), x ∈ boolVocab := by
    intro v hv
    simpa using hvocab v hv
  simp [analyzeColumnType, hda, hna, hbool, hne', hd4, hall, hvm, hp1, hp2, hp3,
    hp4, hp5, hp6, hp7, hp8, hp9, hp10, hp11, hp12, hp13, hb1, hb2]
  rw [if_pos hvm]
  simp

/-- C8 (witness).  The spec's own example: identifier `is_active` with
sample `["true", "false", "true"]` satisfies every hypothesis and the
inferencer returns BOOLEAN. -/
theorem infer_type_boolean_witness :
    analyzeColumnType "is_active" [some "true", some "false", some "true"] = "BOOLEAN" :=
  infer_type_boolean "is_active" [some "true", some "false", some "true"]
    (by decide) (by decide) (by decide) (by decide) (by decide) (by decide)
    (by decide) (by decide)

/-- C9.  A table whose load succeeds but whose post-load count differs
from the configured expectation is recorded with status `warning` (not
`failed`), and the run keeps processing every other mapping entry: the
results of the tables before and after it are exactly their own
processing, unaffected by the mismatch. -/
theorem load_verification_warning (pre post : List TableEnv) (env : TableEnv)
    (hb : env.blobFound = true) (hc : env.csvOk = true)
    (ht : env.tableExists = true) (hl : env.loadOk = true)
    (hm : env.actualCount ≠ env.expectedRows) :
    processTable env = Status.warning ∧
    Status.warning ≠ Status.failed ∧
    loadFromAzureRun (pre ++ env :: post) =
      loadFromAzureRun pre ++ Status.warning :: loadFromAzureRun post := by
  have hpt : processTable env = Status.warning := by
    simp [processTable, hb, hc, ht, hl, verifyDataLoad, hm]
  refine ⟨hpt, by simp, ?_⟩
  unfold loadFromAzureRun
  rw [List.map_append, List.map_cons, hpt]

/-- C9 (witness).  A concrete three-table run: the middle table loads
but counts 7 instead of 10; it is recorded as a warning and the other
two tables are processed normally. -/
theorem load_verification_warning_witness :
    processTable ⟨true, true, true, true, 10, 7⟩ = Status.warning ∧
    Status.warning ≠ Status.failed ∧
    loadFromAzureRun ([⟨false, true, true, true, 5, 5⟩] ++
        (⟨true, true, true, true, 10, 7⟩ : TableEnv) :: [⟨true, true, true, true, 3, 3⟩]) =
      loadFromAzureRun [⟨false, true, true, true, 5, 5⟩] ++
        Status.warning :: loadFromAzureRun [⟨true, true, true, true, 3, 3⟩] :=
  load_verification_warning [⟨false, true, true, true, 5, 5⟩]
    [⟨true, true, true, true, 3, 3⟩] ⟨true, true, true, true, 10, 7⟩
    (by decide) (by decide) (by decide) (by decide) (by decide)

/-- C10.  `load_data_to_snowflake` truncates before attempting the bulk
write: when the write step fails the call reports failure with the
table left empty — the pre-call rows are gone, so the load is not
atomic on error; when the write succeeds the table holds exactly the
payload. -/
theorem truncate_before_load (pre payload : List String) :
    loadDataToSnowflake pre payload false = (false, []) ∧
    loadDataToSnowflake pre payload true = (true, payload) ∧
    (pre ≠ [] → (loadDataToSnowflake pre payload false).2 ≠ pre) := by
  refine ⟨rfl, rfl, ?_⟩
  intro hne h
  exact hne h.symm

/-- C10 (witness).  A table with one pre-existing row, loaded with a
failing write, ends empty rather than keeping its row. -/
theorem truncate_before_load_witness :
    (["r1"] : List String) ≠ [] ∧
    (loadDataToSnowflake ["r1"] ["p"] false).2 ≠ ["r1"] :=
  ⟨by decide, (truncate_before_load ["r1"] ["p"]).2.2 (by decide)⟩

end CloudPipe
